import Mathlib

/- Shallow embedding of the offline-first synchronization layer of the
production-tracking frontend: the IndexedDB utility modules
(`utils/indexedDB.js`, `utils/indexedDb.js`, `utils/offlineAdditions.js`),
the service-worker sync routine, and the offline branches of the page
controllers (`OperatorProductionPage.jsx`, `ProductionDataPage.jsx`).

IndexedDB object stores are modelled as lists of rows together with the
store-level facts the code relies on: `put` upserts by the store's key path,
`delete` removes by key, `getAll` returns rows in ascending key order, and
an `autoIncrement` store assigns consecutive integer keys from a counter
that is persisted with the database. -/

namespace ProdSync

/-- A production record as exchanged with the backend and stored in the
IndexedDB caches.  `rec_id` embeds the JS `id` field: server-assigned for
fetched records, `offline_<Date.now()>` for records created offline by
`OperatorProductionPage.handleSave`. -/
structure PRec where
  rec_id : String
  product_name : String
  machine_id : String
  operator_id : String
  quantity_produced : Nat
deriving DecidableEq, Repr

/-- IndexedDB `store.put` on the `production_records` cache store
(`keyPath: 'id'`): replaces the row with the same key, or appends the
record when its key is new. -/
def cachePut (s : List PRec) (r : PRec) : List PRec :=
  if s.any (fun x => x.rec_id == r.rec_id) then
    s.map (fun x => if x.rec_id == r.rec_id then r else x)
  else s ++ [r]

/-- `putRecords` of `utils/indexedDB.js` (DB version 1, the module both page
controllers import): puts every record of the argument array, without
clearing the store first. -/
def putRecords_v1 (s : List PRec) (records : List PRec) : List PRec :=
  records.foldl cachePut s

/-- `putRecords` of `utils/indexedDb.js` (DB version 2): clears the cache
store, then puts every record of the argument array. -/
def putRecords_v2 (_s : List PRec) (records : List PRec) : List PRec :=
  records.foldl cachePut []

/-- IndexedDB `getAll` on the record cache: every stored record, in
ascending key order. -/
def getRecords (s : List PRec) : List PRec :=
  s.insertionSort (fun a b => a.rec_id ≤ b.rec_id)

/-- Concrete records used in witnesses and counterexamples. -/
def recA : PRec := ⟨"1", "Widget A", "M1", "op1", 5⟩

def recB : PRec := ⟨"2", "Widget B", "M2", "op2", 7⟩

def recC : PRec := ⟨"3", "Widget C", "M1", "op1", 2⟩

def recD : PRec := ⟨"4", "Widget D", "M2", "op2", 9⟩

theorem foldl_cachePut_of_nodup :
    ∀ (records acc : List PRec),
      (((acc ++ records).map PRec.rec_id).Nodup) →
      records.foldl cachePut acc = acc ++ records := by
  intro records
  induction records with
  | nil => intro acc _; simp
  | cons r rest ih =>
    intro acc h
    have hmaps : ((acc.map PRec.rec_id) ++ (r.rec_id :: rest.map PRec.rec_id)).Nodup := by
      simpa using h
    have hnotin : r.rec_id ∉ acc.map PRec.rec_id := by
      have hdisj := (List.nodup_append.mp hmaps).2.2
      intro hmem
      exact hdisj hmem (by simp)
    have hany : acc.any (fun x => x.rec_id == r.rec_id) = false := by
      rw [List.any_eq_false]
      intro x hx
      simp only [beq_iff_eq]
      intro hxe
      exact hnotin (hxe ▸ List.mem_map_of_mem PRec.rec_id hx)
    have hput : cachePut acc r = acc ++ [r] := by
      unfold cachePut
      rw [hany]
      simp
    have hrest : (((acc ++ [r]) ++ rest).map PRec.rec_id).Nodup := by
      simpa using h
    calc (r :: rest).foldl cachePut acc
        = rest.foldl cachePut (cachePut acc r) := by simp [List.foldl_cons]
      _ = rest.foldl cachePut (acc ++ [r]) := by rw [hput]
      _ = (acc ++ [r]) ++ rest := ih (acc ++ [r]) hrest
      _ = acc ++ r :: rest := by simp

theorem mem_getRecords {r : PRec} {s : List PRec} : r ∈ getRecords s ↔ r ∈ s := by
  unfold getRecords
  exact List.mem_insertionSort _

/-- C1, counterexample: the `putRecords` both pages actually import
(`utils/indexedDB.js`) upserts without clearing the store, so a record of
an earlier cache state whose id is not among the new result set survives
the write: writing R = [recB] over a cache holding [recA] leaves recA
readable, although recA is not in R. -/
theorem c1_counterexample :
    recA ∈ getRecords (putRecords_v1 [recA] [recB]) ∧ recA ∉ [recB] := by
  constructor
  · rw [mem_getRecords]
    decide
  · decide

/-- C1, amended: the version-2 `putRecords` (`utils/indexedDb.js`), which
clears the store before inserting, does realize the full-replace contract:
for any previous cache state and any record list R with pairwise-distinct
ids, a subsequent `getRecords` returns exactly the members of R. -/
theorem c1_replaceAll_readAll_exact (prior R : List PRec)
    (h : (R.map PRec.rec_id).Nodup) :
    ∀ r : PRec, r ∈ getRecords (putRecords_v2 prior R) ↔ r ∈ R := by
  intro r
  rw [mem_getRecords]
  unfold putRecords_v2
  rw [foldl_cachePut_of_nodup R [] (by simpa using h)]
  simp

/-- C1, witness: the amended theorem applied at a concrete prior cache
state and record list. -/
theorem c1_witness :
    (([recB].map PRec.rec_id).Nodup) ∧
    (recB ∈ getRecords (putRecords_v2 [recA] [recB]) ↔ recB ∈ [recB]) :=
  ⟨by decide, c1_replaceAll_readAll_exact [recA] [recB] (by decide) recB⟩

/-- A row of the `offline_additions` object store (`utils/offlineAdditions.js`):
the saved payload plus the fields the page and the store attach.  `local_id`
is the store's autoIncrement key; `localId` and the payload's
`offline_<now>` record id are set by `handleSave`; `synced` and
`created_at` are set by `putOfflineAddition`. -/
structure QEntry where
  local_id : Nat
  payload : PRec
  localId : Nat
  synced : Bool
  created_at : Nat
deriving DecidableEq, Repr

/-- The `offline_additions` store: IndexedDB persists the autoIncrement
counter (`nextKey`, first key 1) together with the rows, also across
sessions and page reloads. -/
structure QStore where
  entries : List QEntry
  nextKey : Nat
deriving DecidableEq, Repr

def QStore.empty : QStore := ⟨[], 1⟩

/-- `putOfflineAddition` (`utils/offlineAdditions.js`): `db.add` of
`{...record, synced: false, created_at: now}`; the store assigns the next
autoIncrement key and advances the counter. -/
def putOfflineAddition (q : QStore) (r : PRec) (lid : Nat) (now : Nat) : QStore :=
  ⟨q.entries ++ [⟨q.nextKey, r, lid, false, now⟩], q.nextKey + 1⟩

/-- `getOfflineAdditions` (`utils/offlineAdditions.js`): IndexedDB `getAll`,
rows in ascending key order. -/
def getOfflineAdditions (q : QStore) : List QEntry :=
  q.entries.insertionSort (fun a b => a.local_id ≤ b.local_id)

/-- `removeOfflineAddition` (`utils/offlineAdditions.js`): IndexedDB
`delete` by key. -/
def removeOfflineAddition (q : QStore) (k : Nat) : QStore :=
  ⟨q.entries.filter (fun e => e.local_id != k), q.nextKey⟩

/-- The per-entry loop of `syncOfflineAdditions`
(`OperatorProductionPage.jsx`): POST each listed entry; on a 2xx response
(`response.ok`) delete the entry from the store, on a server rejection or a
thrown network error keep it; in every case continue with the next entry
(each iteration has its own try/catch).  The backend's decision for an
entry is abstracted as `resp : QEntry → Bool`, `true` exactly on a 2xx
acknowledgement. -/
def syncLoop (resp : QEntry → Bool) : QStore → List QEntry → QStore
  | q, [] => q
  | q, e :: rest =>
      syncLoop resp (if resp e then removeOfflineAddition q e.local_id else q) rest

/-- `syncOfflineAdditions` (`OperatorProductionPage.jsx`): list the queue,
then run the per-entry loop over the listed entries. -/
def syncOfflineAdditions (resp : QEntry → Bool) (q : QStore) : QStore :=
  syncLoop resp q (getOfflineAdditions q)

theorem syncLoop_entries (resp : QEntry → Bool) :
    ∀ (l : List QEntry) (q : QStore),
      (syncLoop resp q l).entries
        = q.entries.filter
            (fun x => !(l.any (fun e => resp e && x.local_id == e.local_id))) := by
  intro l
  induction l with
  | nil => intro q; simp [syncLoop]
  | cons e rest ih =>
    intro q
    rw [syncLoop, ih]
    by_cases hre : resp e = true
    · rw [if_pos hre]
      unfold removeOfflineAddition
      rw [List.filter_filter]
      apply List.filter_congr
      intro x _
      simp [hre, Bool.and_comm, Bool.not_or, bne]
    · rw [if_neg hre]
      apply List.filter_congr
      intro x _
      simp [Bool.eq_false_iff.mp (Bool.not_eq_true (resp e) ▸ hre)]

theorem mem_getOfflineAdditions {e : QEntry} {q : QStore} :
    e ∈ getOfflineAdditions q ↔ e ∈ q.entries := by
  unfold getOfflineAdditions
  exact List.mem_insertionSort _

/-- C2: one drain pass over the offline-additions queue removes exactly the
entries whose POST was acknowledged with a 2xx response and leaves every
rejected or network-failed entry in place in its original relative order
(the surviving store is the original list filtered to the non-acknowledged
entries); one entry's failure never prevents later entries from being
attempted, and no entry is removed without a successful POST.  The only
hypothesis is the store invariant that keys are distinct. -/
theorem c2_drain_exact (resp : QEntry → Bool) (q : QStore)
    (h : (q.entries.map QEntry.local_id).Nodup) :
    (syncOfflineAdditions resp q).entries = q.entries.filter (fun e => !resp e) := by
  unfold syncOfflineAdditions
  rw [syncLoop_entries]
  apply List.filter_congr
  intro x hx
  congr 1
  by_cases hrx : resp x = true
  · rw [hrx]
    rw [List.any_eq_true]
    exact ⟨x, mem_getOfflineAdditions.mpr hx, by simp [hrx]⟩
  · rw [Bool.not_eq_true] at hrx
    rw [hrx]
    rw [List.any_eq_false]
    intro e he
    rw [mem_getOfflineAdditions] at he
    simp only [Bool.and_eq_true, beq_iff_eq]
    intro ⟨hre, hkey⟩
    have hex : x = e := List.inj_on_of_nodup_map h hx he hkey
    rw [hex, hre] at hrx
    cases hrx

/-- Queue and backend pattern for the C2 witness: four entries, the backend
accepting the first and third (the even index positions of the listed
queue). -/
def qDemo : QStore :=
  ⟨[⟨1, recA, 1, false, 10⟩, ⟨2, recB, 2, false, 11⟩,
    ⟨3, recC, 3, false, 12⟩, ⟨4, recD, 4, false, 13⟩], 5⟩

def respEven : QEntry → Bool := fun e => e.local_id % 2 == 1

/-- C2, witness: the drain theorem applied to a concrete four-entry queue
where the backend accepts the entries at even index positions; exactly the
odd-indexed entries remain, in their original relative order. -/
theorem c2_drain_witness :
    ((qDemo.entries.map QEntry.local_id).Nodup) ∧
    (syncOfflineAdditions respEven qDemo).entries
      = qDemo.entries.filter (fun e => !respEven e) :=
  ⟨by decide, c2_drain_exact respEven qDemo (by decide)⟩

/-- Outcome of the POST issued by the online branch of `handleSave`:
`created` is a 2xx response, `rejected` a non-2xx response with its error
body, `netThrow` a thrown network error. -/
inductive PostResp
  | created
  | rejected (detail : String)
  | netThrow (msg : String)
deriving DecidableEq, Repr

/-- The user-visible result of `handleSave`, one constructor per `setMessage`
branch of the create path. -/
inductive SaveOutcome
  | savedOnline
  | savedPending
  | offlineSaveFailed
  | opFailed (detail : String)
  | netError (msg : String)
deriving DecidableEq, Repr

structure SaveOut where
  queue : QStore
  outcome : SaveOutcome
  networkAttempted : Bool
deriving DecidableEq, Repr

/-- The create path of `handleSave` (`OperatorProductionPage.jsx`).
Offline branch: default the operator id to the current user when absent,
build the offline record with `id = 'offline_' + Date.now()` and
`localId = Date.now()`, enqueue it via `putOfflineAddition` and report the
pending save; no network request is issued.  A failing store
(`storeOk = false`) is caught and reported.  Online branch: POST
(`networkAttempted = true`) and report the response; the queue is never
touched.  `isOp` stands for `isCurrentUserOperator && user?.username`
being available, `post` for the backend's decision on the POST. -/
def handleSave (isOffline storeOk : Bool) (post : PostResp) (q : QStore)
    (recordData : PRec) (isOp : Bool) (username : String) (now : Nat) : SaveOut :=
  if isOffline then
    let operatorId :=
      if recordData.operator_id == "" && isOp then username else recordData.operator_id
    let offlineRec : PRec :=
      { recordData with
          operator_id := operatorId,
          rec_id := "offline_" ++ Nat.repr now }
    if storeOk then
      ⟨putOfflineAddition q offlineRec now now, SaveOutcome.savedPending, false⟩
    else ⟨q, SaveOutcome.offlineSaveFailed, false⟩
  else
    match post with
    | PostResp.created => ⟨q, SaveOutcome.savedOnline, true⟩
    | PostResp.rejected d => ⟨q, SaveOutcome.opFailed d, true⟩
    | PostResp.netThrow m => ⟨q, SaveOutcome.netError m, true⟩

/-- C3: when the connectivity monitor reports offline at write time (and the
local store is working), `handleSave` enqueues the record and returns the
saved-pending result immediately: the pending-write queue grows by exactly
one entry, no network request is attempted, and the caller receives the
pending signal rather than an error — for every record, queue state and
backend behaviour. -/
theorem c3_offline_save_pending (post : PostResp) (q : QStore) (r : PRec)
    (isOp : Bool) (u : String) (now : Nat) :
    (handleSave true true post q r isOp u now).outcome = SaveOutcome.savedPending ∧
    (handleSave true true post q r isOp u now).queue.entries.length
      = q.entries.length + 1 ∧
    (handleSave true true post q r isOp u now).networkAttempted = false := by
  refine ⟨rfl, ?_, rfl⟩
  simp [handleSave, putOfflineAddition]

/-- C6: a write submitted while the monitor reports online that fails —
either a server rejection or a thrown network error — surfaces the error to
the caller and never touches the pending-write queue: the queue is
identical before and after, for every queue state, record and error. -/
theorem c6_online_failure_not_queued (sOk : Bool) (q : QStore) (r : PRec)
    (isOp : Bool) (u : String) (now : Nat) (d m : String) :
    ((handleSave false sOk (PostResp.rejected d) q r isOp u now).queue = q ∧
     (handleSave false sOk (PostResp.rejected d) q r isOp u now).outcome
       = SaveOutcome.opFailed d) ∧
    ((handleSave false sOk (PostResp.netThrow m) q r isOp u now).queue = q ∧
     (handleSave false sOk (PostResp.netThrow m) q r isOp u now).outcome
       = SaveOutcome.netError m) :=
  ⟨⟨rfl, rfl⟩, ⟨rfl, rfl⟩⟩

/-- Outcome of the GET issued by a fetch: a 2xx response carrying the
record array, a non-2xx response with its error detail, or a thrown
network error. -/
inductive NetResp
  | ok (data : List PRec)
  | httpErr (detail : String)
  | netThrow (msg : String)
deriving DecidableEq, Repr

/-- The signal a fetch reports to the UI, one constructor per `setMessage`
family: fresh server data, cache fallback after a failed request, cache
because offline, or the generic error branch. -/
inductive FetchSignal
  | loadedNetwork
  | loadedCache
  | offlineCache
  | errorSignal
deriving DecidableEq, Repr

structure FetchOut where
  records : List PRec
  signal : FetchSignal
deriving DecidableEq, Repr

/-- The operator scoping applied to cached data in
`OperatorProductionPage.jsx`: when the current user is an operator, keep
only their own records. -/
def opFilter (isOp : Bool) (username : String) (rs : List PRec) : List PRec :=
  if isOp then rs.filter (fun r => r.operator_id == username) else rs

/-- `fetchProductionRecords` (`OperatorProductionPage.jsx`).  Online with a
2xx response: show the server data, then write it to the cache — a failing
cache write throws into the outer catch, which clears the record list and
reports a generic error.  Online with a non-2xx response: read the cache,
scope it to the current operator, report the cache fallback; a failing
cache read also lands in the outer catch.  Online with a thrown network
error: the outer catch clears the record list and reports the error — the
cache is not consulted.  Offline: read the cache, scope it, report cached
data.  The `_pending` argument is the pending-write queue: the function
receives it only to record that this code never reads it during a fetch. -/
def fetchOperator (isOffline : Bool) (resp : NetResp)
    (cacheWriteOk cacheReadOk : Bool) (cache : List PRec) (_pending : QStore)
    (isOp : Bool) (username : String) : FetchOut :=
  if !isOffline then
    match resp with
    | NetResp.ok data =>
        if cacheWriteOk then ⟨data, FetchSignal.loadedNetwork⟩
        else ⟨[], FetchSignal.errorSignal⟩
    | NetResp.httpErr _ =>
        if cacheReadOk then ⟨opFilter isOp username cache, FetchSignal.loadedCache⟩
        else ⟨[], FetchSignal.errorSignal⟩
    | NetResp.netThrow _ => ⟨[], FetchSignal.errorSignal⟩
  else
    if cacheReadOk then ⟨opFilter isOp username cache, FetchSignal.offlineCache⟩
    else ⟨[], FetchSignal.errorSignal⟩

/-- `fetchProductionRecords` (`ProductionDataPage.jsx`).  Online with a 2xx
response: show the server data, then write it to the cache — a failing
cache write throws into the catch, which replaces the shown data with the
cache contents (or an empty list when the cache read fails too).  Online
with a non-2xx response or a thrown network error: read the cache and show
it.  Offline: the `finally` block reads the cache and shows it. -/
def fetchDataPage (isOffline : Bool) (resp : NetResp)
    (cacheWriteOk cacheReadOk : Bool) (cache : List PRec) : FetchOut :=
  if !isOffline then
    match resp with
    | NetResp.ok data =>
        if cacheWriteOk then ⟨data, FetchSignal.loadedNetwork⟩
        else if cacheReadOk then ⟨cache, FetchSignal.loadedCache⟩
        else ⟨[], FetchSignal.errorSignal⟩
    | NetResp.httpErr _ =>
        if cacheReadOk then ⟨cache, FetchSignal.loadedCache⟩
        else ⟨[], FetchSignal.errorSignal⟩
    | NetResp.netThrow _ =>
        if cacheReadOk then ⟨cache, FetchSignal.loadedCache⟩
        else ⟨[], FetchSignal.errorSignal⟩
  else
    if cacheReadOk then ⟨cache, FetchSignal.offlineCache⟩
    else ⟨[], FetchSignal.errorSignal⟩

/-- A previously populated three-record cache, and failure messages, used by
the fetch counterexamples. -/
def cache3 : List PRec := [recA, recB, recC]

def netMsg : String := "Failed to fetch"

def err500 : String := "Internal Server Error"

/-- C4, failing input: with the monitor reporting online, a previously
populated three-record cache and a fetch that terminates in a thrown
network error, `OperatorProductionPage.fetchProductionRecords` clears the
record list and reports a generic error instead of returning the cache —
while the same input on `ProductionDataPage.fetchProductionRecords`, and a
non-2xx response on the operator page itself, do fall back to the cache.
The code contradicts the required independent cache fallback in exactly
this branch. -/
theorem c4_operator_netthrow_drops_cache :
    (fetchOperator false (NetResp.netThrow netMsg) true true cache3
        QStore.empty false (("") : String)).records = [] ∧
    (fetchOperator false (NetResp.netThrow netMsg) true true cache3
        QStore.empty false (("") : String)).signal = FetchSignal.errorSignal ∧
    (fetchDataPage false (NetResp.netThrow netMsg) true true cache3).records = cache3 ∧
    (fetchOperator false (NetResp.httpErr err500) true true cache3
        QStore.empty false (("") : String)).records = cache3 := by
  decide

/-- A pending-write queue holding one locally created record, used by the
C5 counterexample. -/
def pendingRec : PRec := ⟨"offline_55", "Widget P", "M3", "op1", 4⟩

def queue1 : QStore := ⟨[⟨1, pendingRec, 55, false, 55⟩], 2⟩

/-- C5, counterexample: a fetch that terminates from cache (here: offline at
fetch time) returns only the record cache — the pending-write queue entry
is not merged into the view: with an empty cache and a one-entry queue the
returned view is empty, although the claimed merge would contain the
pending record. -/
theorem c5_counterexample :
    (fetchOperator true (NetResp.httpErr err500) true true []
        queue1 true (("op1") : String)).records = [] ∧
    pendingRec ∈ queue1.entries.map QEntry.payload := by
  decide

theorem mem_opFilter_mem_cache {isOp : Bool} {u : String} {cache : List PRec}
    {r : PRec} (h : r ∈ opFilter isOp u cache) : r ∈ cache := by
  unfold opFilter at h
  by_cases hop : isOp = true
  · rw [if_pos hop] at h
    exact List.mem_of_mem_filter h
  · rw [Bool.not_eq_true] at hop
    rw [hop] at h
    simpa using h

/-- C5, amended: a fetch that terminates from cache — offline at fetch
time, or online with a non-2xx response — returns exactly the
operator-scoped record cache contents; pending-write queue entries are
never part of the result (any queue payload appearing in the view is
already a cache record), for every response, queue and cache state. -/
theorem c5_cache_fetch_returns_cache_only (resp : NetResp) (d : String)
    (cWrite : Bool) (cache : List PRec) (pending : QStore) (isOp : Bool)
    (u : String) :
    (fetchOperator true resp cWrite true cache pending isOp u).records
      = opFilter isOp u cache ∧
    (fetchOperator false (NetResp.httpErr d) cWrite true cache pending isOp u).records
      = opFilter isOp u cache ∧
    (∀ e : QEntry, e ∈ pending.entries →
      e.payload ∈ (fetchOperator true resp cWrite true cache pending isOp u).records →
      e.payload ∈ cache) ∧
    (∀ e : QEntry, e ∈ pending.entries →
      e.payload ∈ (fetchOperator false (NetResp.httpErr d) cWrite true
          cache pending isOp u).records →
      e.payload ∈ cache) := by
  refine ⟨rfl, rfl, ?_, ?_⟩
  · intro e _ hmem
    exact mem_opFilter_mem_cache hmem
  · intro e _ hmem
    exact mem_opFilter_mem_cache hmem

/-- C7, failing input: the network fetch succeeds (server data `[recD]`) but
the subsequent cache write fails.  `OperatorProductionPage` ends with an
empty record list and a generic error, `ProductionDataPage` replaces the
fresh server data with the stale cache — neither returns the server data
to the caller, contradicting the recoverable-storage-failure design. -/
theorem c7_cache_write_failure_drops_server_data :
    (fetchOperator false (NetResp.ok [recD]) false true cache3
        QStore.empty false (("") : String)).records = [] ∧
    (fetchDataPage false (NetResp.ok [recD]) false true cache3).records = cache3 ∧
    recD ∉ cache3 := by
  decide

/-- C5, witness: the amended theorem applied at a concrete input whose cache
already holds the pending payload, discharging the membership hypotheses of
both the offline and the non-2xx case. -/
theorem c5_witness :
    (fetchOperator true (NetResp.httpErr err500) true true [pendingRec]
        queue1 true (("op1") : String)).records
      = opFilter true (("op1") : String) [pendingRec] ∧
    (fetchOperator false (NetResp.httpErr err500) true true [pendingRec]
        queue1 true (("op1") : String)).records
      = opFilter true (("op1") : String) [pendingRec] ∧
    pendingRec ∈ [pendingRec] ∧ pendingRec ∈ [pendingRec] :=
  ⟨(c5_cache_fetch_returns_cache_only (NetResp.httpErr err500) err500 true
      [pendingRec] queue1 true (("op1") : String)).1,
   (c5_cache_fetch_returns_cache_only (NetResp.httpErr err500) err500 true
      [pendingRec] queue1 true (("op1") : String)).2.1,
   (c5_cache_fetch_returns_cache_only (NetResp.httpErr err500) err500 true
      [pendingRec] queue1 true (("op1") : String)).2.2.1
      ⟨1, pendingRec, 55, false, 55⟩ (by decide) (by decide),
   (c5_cache_fetch_returns_cache_only (NetResp.httpErr err500) err500 true
      [pendingRec] queue1 true (("op1") : String)).2.2.2
      ⟨1, pendingRec, 55, false, 55⟩ (by decide) (by decide)⟩

/-- A sequence of offline enqueues: fold `putOfflineAddition` over
(payload, clock reading) pairs, the caller passing the clock reading for
both the `localId` argument and `created_at`, as `handleSave` does. -/
def enqueueAll (q : QStore) (xs : List (PRec × Nat)) : QStore :=
  xs.foldl (fun a x => putOfflineAddition a x.1 x.2 x.2) q

/-- The rows such a sequence appends, with autoIncrement keys starting at
`k`. -/
def mkRows : Nat → List (PRec × Nat) → List QEntry
  | _, [] => []
  | k, x :: xs => ⟨k, x.1, x.2, false, x.2⟩ :: mkRows (k + 1) xs

theorem enqueueAll_entries :
    ∀ (xs : List (PRec × Nat)) (q : QStore),
      (enqueueAll q xs).entries = q.entries ++ mkRows q.nextKey xs := by
  intro xs
  induction xs with
  | nil => intro q; simp [enqueueAll, mkRows]
  | cons x rest ih =>
    intro q
    show (enqueueAll (putOfflineAddition q x.1 x.2 x.2) rest).entries = _
    rw [ih]
    simp [putOfflineAddition, mkRows]

theorem mkRows_key_lb :
    ∀ (xs : List (PRec × Nat)) (k : Nat) (e : QEntry),
      e ∈ mkRows k xs → k ≤ e.local_id := by
  intro xs
  induction xs with
  | nil => intro k e he; cases he
  | cons x rest ih =>
    intro k e he
    rw [mkRows] at he
    rcases List.mem_cons.mp he with h | h
    · rw [h]
    · exact Nat.le_of_succ_le (ih (k + 1) e h)

theorem mkRows_keys_lt :
    ∀ (xs : List (PRec × Nat)) (k : Nat),
      ((mkRows k xs).map QEntry.local_id).Pairwise (· < ·) := by
  intro xs
  induction xs with
  | nil => intro k; simp [mkRows]
  | cons x rest ih =>
    intro k
    rw [mkRows]
    simp only [List.map_cons]
    rw [List.pairwise_cons]
    constructor
    · intro b hb
      rcases List.mem_map.mp hb with ⟨e, he, hbe⟩
      have hk := mkRows_key_lb rest (k + 1) e he
      omega
    · exact ih (k + 1)

theorem mkRows_created :
    ∀ (xs : List (PRec × Nat)) (k : Nat),
      (mkRows k xs).map QEntry.created_at = xs.map Prod.snd := by
  intro xs
  induction xs with
  | nil => intro k; simp [mkRows]
  | cons x rest ih => intro k; simp [mkRows, ih]

theorem mkRows_localId :
    ∀ (xs : List (PRec × Nat)) (k : Nat),
      (mkRows k xs).map QEntry.localId = xs.map Prod.snd := by
  intro xs
  induction xs with
  | nil => intro k; simp [mkRows]
  | cons x rest ih => intro x; simp [mkRows, ih]

theorem mkRows_mem :
    ∀ (xs : List (PRec × Nat)) (k : Nat) (e : QEntry), e ∈ mkRows k xs →
      ∃ y ∈ xs, e.payload = y.1 ∧ e.localId = y.2 := by
  intro xs
  induction xs with
  | nil => intro k e he; cases he
  | cons x rest ih =>
    intro k e he
    rw [mkRows] at he
    rcases List.mem_cons.mp he with h | h
    · exact ⟨x, by simp, by rw [h], by rw [h]⟩
    · rcases ih (k + 1) e h with ⟨y, hy, h1, h2⟩
      exact ⟨y, List.mem_cons_of_mem x hy, h1, h2⟩

theorem mkRows_sorted_by_key (xs : List (PRec × Nat)) (k : Nat) :
    (mkRows k xs).Pairwise (fun a b => a.local_id ≤ b.local_id) := by
  have h := mkRows_keys_lt xs k
  rw [List.pairwise_map] at h
  exact h.imp (fun hab => Nat.le_of_lt hab)

theorem getOfflineAdditions_enqueueAll (xs : List (PRec × Nat)) :
    getOfflineAdditions (enqueueAll QStore.empty xs) = mkRows 1 xs := by
  unfold getOfflineAdditions
  rw [enqueueAll_entries]
  show (((QStore.empty).entries ++ mkRows (QStore.empty).nextKey xs).insertionSort _) = _
  rw [show (QStore.empty).entries = [] from rfl, show (QStore.empty).nextKey = 1 from rfl]
  rw [List.nil_append]
  exact List.Sorted.insertionSort_eq (mkRows_sorted_by_key xs 1)

/-- C8, amended (part one): `getOfflineAdditions` returns the queue rows in
autoIncrement key order, which is the enqueue order; whenever the clock
readings of the enqueues are nondecreasing (`Date.now` across successive
calls), the listed entries are therefore ordered by creation timestamp
ascending, oldest first. -/
theorem c8_offline_additions_sorted (xs : List (PRec × Nat))
    (h : (xs.map Prod.snd).Sorted (· ≤ ·)) :
    (getOfflineAdditions (enqueueAll QStore.empty xs)).map QEntry.created_at
      = xs.map Prod.snd ∧
    ((getOfflineAdditions (enqueueAll QStore.empty xs)).map
        QEntry.created_at).Sorted (· ≤ ·) := by
  have heq : (getOfflineAdditions (enqueueAll QStore.empty xs)).map QEntry.created_at
      = xs.map Prod.snd := by
    rw [getOfflineAdditions_enqueueAll, mkRows_created]
  exact ⟨heq, heq ▸ h⟩

/-- C8, witness: the amended theorem applied to two enqueues with clock
readings 5 and 7. -/
theorem c8_witness :
    (([(recA, (5 : Nat)), (recB, 7)].map Prod.snd).Sorted (· ≤ ·)) ∧
    ((getOfflineAdditions (enqueueAll QStore.empty [(recA, 5), (recB, 7)])).map
        QEntry.created_at = [(recA, (5 : Nat)), (recB, 7)].map Prod.snd ∧
     ((getOfflineAdditions (enqueueAll QStore.empty [(recA, 5), (recB, 7)])).map
        QEntry.created_at).Sorted (· ≤ ·)) :=
  ⟨by decide, c8_offline_additions_sorted [(recA, 5), (recB, 7)] (by decide)⟩

/-- A row of the `production_sync_queue` store (`utils/indexedDb.js`,
DB version 2): keyed by the string id `offline-<uuid>`, carrying the
enqueue timestamp. -/
structure SEntry where
  sid : String
  timestamp : Nat
  payload : PRec
deriving DecidableEq, Repr

/-- `addRecordToSyncQueue` (`utils/indexedDb.js`): a fresh record gets the
id `offline-<crypto.randomUUID()>` and `timestamp = Date.now()`, then is
`put` into the store (upsert by id). -/
def addRecordToSyncQueue (s : List SEntry) (uuid : String) (now : Nat)
    (r : PRec) : List SEntry :=
  let sid := "offline-" ++ uuid
  if s.any (fun e => e.sid == sid) then
    s.map (fun e => if e.sid == sid then ⟨sid, now, r⟩ else e)
  else s ++ [⟨sid, now, r⟩]

/-- `getRecordsFromSyncQueue` (`utils/indexedDb.js`): IndexedDB `getAll`,
rows in ascending order of their string keys. -/
def getRecordsFromSyncQueue (s : List SEntry) : List SEntry :=
  s.insertionSort (fun a b => a.sid ≤ b.sid)

/-- Two randomly drawn UUIDs where the later enqueue draws the
lexicographically smaller one. -/
def uuidLate : String := "a2c9e210-4f1b-4c61-9d9e-52a86e7a11b3"

def uuidFirst : String := "b7b4f969-2d43-49c0-8f0a-cc3de1a0b9d4"

/-- C8, counterexample: in the version-2 sync queue the key is the random
string `offline-<uuid>`, so `getAll` order follows the UUIDs, not the
timestamps: enqueueing at time 1 (uuid starting with b) and then at time 2
(uuid starting with a) makes `getRecordsFromSyncQueue` list the younger
entry first — the claimed creation-timestamp-ascending order fails. -/
theorem c8_counterexample :
    (getRecordsFromSyncQueue
        (addRecordToSyncQueue (addRecordToSyncQueue [] uuidFirst 1 recA)
          uuidLate 2 recB)).map SEntry.timestamp = [2, 1] ∧
    ¬ (([2, 1] : List Nat).Sorted (· ≤ ·)) := by
  have hq : addRecordToSyncQueue (addRecordToSyncQueue [] uuidFirst 1 recA)
        uuidLate 2 recB
      = [⟨"offline-" ++ uuidFirst, 1, recA⟩, ⟨"offline-" ++ uuidLate, 2, recB⟩] := by
    decide
  have hlt : ("offline-" ++ uuidLate : String) < ("offline-" ++ uuidFirst) := by
    rw [String.lt_iff_toList_lt]
    decide
  have hle : ¬ (("offline-" ++ uuidFirst : String) ≤ ("offline-" ++ uuidLate)) :=
    not_le.mpr hlt
  constructor
  · rw [hq]
    unfold getRecordsFromSyncQueue
    simp only [List.insertionSort, List.orderedInsert]
    rw [if_neg hle]
    simp
  · decide

/-- The record identifier `handleSave` gives a record created offline:
`'offline_' + Date.now()`. -/
def setOfflineId (r : PRec) (now : Nat) : PRec :=
  { r with rec_id := "offline_" ++ Nat.repr now }

/-- A sequence of offline `handleSave` calls at given clock readings,
threading the queue (current user not an operator, so payloads keep their
operator id). -/
def offlineSaves (q : QStore) : List (PRec × Nat) → QStore
  | [] => q
  | x :: xs =>
      offlineSaves
        (handleSave true true PostResp.created q x.1 false (("") : String) x.2).queue xs

theorem offlineSaves_eq_enqueueAll :
    ∀ (xs : List (PRec × Nat)) (q : QStore),
      offlineSaves q xs = enqueueAll q (xs.map (fun x => (setOfflineId x.1 x.2, x.2))) := by
  intro xs
  induction xs with
  | nil => intro q; rfl
  | cons x rest ih =>
    intro q
    have hqueue : (handleSave true true PostResp.created q x.1 false (("") : String) x.2).queue
        = putOfflineAddition q (setOfflineId x.1 x.2) x.2 x.2 := by
      simp [handleSave, setOfflineId, Bool.and_false]
    show offlineSaves
        (handleSave true true PostResp.created q x.1 false (("") : String) x.2).queue rest = _
    rw [ih, hqueue, List.map_cons]
    rfl

/-- C9, counterexample: two offline saves that observe the same clock
reading (`Date.now()` has millisecond resolution) are assigned the same
record identifier `offline_55` and the same `localId`, so the identifiers
assigned at enqueue time are not unique within the local store; only the
store's autoIncrement key still distinguishes the two rows. -/
theorem c9_counterexample :
    ((offlineSaves QStore.empty [(recA, 55), (recB, 55)]).entries.map
        (fun e => e.payload.rec_id))
      = [("offline_55" : String), "offline_55"] ∧
    ¬ (((offlineSaves QStore.empty [(recA, 55), (recB, 55)]).entries.map
        (fun e => e.payload.rec_id)).Nodup) ∧
    ((offlineSaves QStore.empty [(recA, 55), (recB, 55)]).entries.map
        QEntry.local_id).Nodup := by
  refine ⟨by decide, by decide, by decide⟩

theorem offlineSaves_entries (ys : List (PRec × Nat)) :
    (offlineSaves QStore.empty ys).entries
      = mkRows 1 (ys.map (fun x => (setOfflineId x.1 x.2, x.2))) := by
  rw [offlineSaves_eq_enqueueAll, enqueueAll_entries]
  rfl

/-- Key uniqueness holds for every save sequence, clocks equal or not: the
autoIncrement counter alone determines the keys. -/
theorem offlineSaves_keys_nodup (ys : List (PRec × Nat)) :
    ((offlineSaves QStore.empty ys).entries.map QEntry.local_id).Nodup := by
  rw [offlineSaves_entries]
  exact (mkRows_keys_lt _ 1).imp (fun hab => Nat.ne_of_lt hab)

/-- C9, amended: the queue rows carry pairwise-distinct autoIncrement keys
unconditionally — for every save sequence, including saves at equal clock
readings, because the persisted counter alone determines the keys; for
offline saves whose clock readings are strictly increasing, the
`localId` values are pairwise distinct as well; every assigned record
identifier has the form `offline_<clock>`, so it differs from any server
identifier not of that form. -/
theorem c9_local_ids_unique_and_distinct (xs : List (PRec × Nat)) (sid : String)
    (hmono : (xs.map Prod.snd).Pairwise (· < ·))
    (hsid : ∀ t : Nat, sid ≠ "offline_" ++ Nat.repr t) :
    (∀ ys : List (PRec × Nat),
       ((offlineSaves QStore.empty ys).entries.map QEntry.local_id).Nodup) ∧
    ((offlineSaves QStore.empty xs).entries.map QEntry.localId).Nodup ∧
    (∀ e ∈ (offlineSaves QStore.empty xs).entries,
       ∃ t : Nat, e.payload.rec_id = "offline_" ++ Nat.repr t ∧ e.localId = t) ∧
    (∀ e ∈ (offlineSaves QStore.empty xs).entries, e.payload.rec_id ≠ sid) := by
  rw [offlineSaves_entries]
  set ys := xs.map (fun x => (setOfflineId x.1 x.2, x.2)) with hys
  have hsnd : ys.map Prod.snd = xs.map Prod.snd := by
    rw [hys, List.map_map]
    rfl
  have hmem : ∀ e ∈ mkRows 1 ys, ∃ t : Nat,
      e.payload.rec_id = "offline_" ++ Nat.repr t ∧ e.localId = t := by
    intro e he
    rcases mkRows_mem ys 1 e he with ⟨y, hy, h1, h2⟩
    rcases List.mem_map.mp hy with ⟨x, _, hxy⟩
    refine ⟨x.2, ?_, ?_⟩
    · rw [h1, ← hxy]
      rfl
    · rw [h2, ← hxy]
  refine ⟨offlineSaves_keys_nodup, ?_, hmem, ?_⟩
  · rw [mkRows_localId, hsnd]
    exact hmono.imp (fun hab => Nat.ne_of_lt hab)
  · intro e he
    rcases hmem e he with ⟨t, hid, _⟩
    rw [hid]
    exact fun h => hsid t h.symm

/-- C9, witness: the amended theorem applied to saves at clock readings 5
and 7, against the server identifier "1" (which is not of the
`offline_<n>` form, being too short). -/
theorem c9_witness :
    (([(recA, (5 : Nat)), (recB, 7)].map Prod.snd).Pairwise (· < ·)) ∧
    ((∀ ys : List (PRec × Nat),
        ((offlineSaves QStore.empty ys).entries.map QEntry.local_id).Nodup) ∧
     ((offlineSaves QStore.empty [(recA, 5), (recB, 7)]).entries.map
        QEntry.localId).Nodup ∧
     (∀ e ∈ (offlineSaves QStore.empty [(recA, 5), (recB, 7)]).entries,
        ∃ t : Nat, e.payload.rec_id = "offline_" ++ Nat.repr t ∧ e.localId = t) ∧
     (∀ e ∈ (offlineSaves QStore.empty [(recA, 5), (recB, 7)]).entries,
        e.payload.rec_id ≠ ("1" : String))) :=
  ⟨by decide,
   c9_local_ids_unique_and_distinct [(recA, 5), (recB, 7)] (("1") : String)
     (by decide)
     (fun t h => by
       have hlen := congrArg String.length h
       rw [String.length_append] at hlen
       rw [show (("1") : String).length = 1 from rfl,
           show (("offline_") : String).length = 8 from rfl] at hlen
       omega)⟩

/-- A named IndexedDB object store together with its contents. -/
structure ObjStore where
  name : String
  contents : List PRec
deriving DecidableEq, Repr

/-- The physical database `production_app_db`: its stored schema version
and its object stores. -/
structure DBState where
  version : Nat
  stores : List ObjStore
deriving DecidableEq, Repr

def syncQueueName : String := "production_sync_queue"

def cacheName : String := "production_records"

def containsStore (stores : List ObjStore) (n : String) : Bool :=
  stores.any (fun s => s.name == n)

/-- `createObjectStore`: adds a fresh, empty store. -/
def createObjectStore (stores : List ObjStore) (n : String) : List ObjStore :=
  stores ++ [⟨n, []⟩]

/-- The `onupgradeneeded` handler of `openDatabase` (`utils/indexedDb.js`,
`DB_VERSION = 2`): creates the sync-queue store and then the cache store,
each only when missing; nothing is ever deleted. -/
def upgradeToV2 (stores : List ObjStore) : List ObjStore :=
  let s1 := if containsStore stores syncQueueName then stores
            else createObjectStore stores syncQueueName
  if containsStore s1 cacheName then s1
  else createObjectStore s1 cacheName

/-- `openDatabase` (`utils/indexedDb.js`): IndexedDB runs the upgrade
handler exactly when the stored version is below the requested
`DB_VERSION = 2`, and stamps the new version. -/
def openDatabase (db : DBState) : DBState :=
  if db.version < 2 then ⟨2, upgradeToV2 db.stores⟩ else db

theorem upgradeToV2_preserves (stores : List ObjStore) (s : ObjStore)
    (hs : s ∈ stores) : s ∈ upgradeToV2 stores := by
  unfold upgradeToV2 createObjectStore
  by_cases h1 : containsStore stores syncQueueName = true
  · rw [if_pos h1]
    by_cases h2 : containsStore stores cacheName = true
    · rw [if_pos h2]; exact hs
    · rw [if_neg h2]; exact List.mem_append_left _ hs
  · rw [if_neg h1]
    by_cases h2 : containsStore (stores ++ [⟨syncQueueName, []⟩]) cacheName = true
    · rw [if_pos h2]; exact List.mem_append_left _ hs
    · rw [if_neg h2]; exact List.mem_append_left _ (List.mem_append_left _ hs)

/-- C10: opening the physical database at expected version 2 over a lower
stored version creates each missing collection and never deletes or
modifies the contents of any existing collection (every pre-existing store
survives unchanged); the open is idempotent; and the concrete
version-1-to-2 scenario — a database holding only the cache collection —
yields exactly the cache collection with its contents untouched plus a
fresh, empty sync-queue collection. -/
theorem c10_migration_safe (db : DBState) (s : ObjStore) (hs : s ∈ db.stores) :
    s ∈ (openDatabase db).stores ∧
    openDatabase (openDatabase db) = openDatabase db ∧
    (∀ C : List PRec,
      (openDatabase ⟨1, [⟨cacheName, C⟩]⟩).stores
        = [⟨cacheName, C⟩, ⟨syncQueueName, []⟩]) := by
  refine ⟨?_, ?_, ?_⟩
  · unfold openDatabase
    by_cases hv : db.version < 2
    · rw [if_pos hv]
      exact upgradeToV2_preserves db.stores s hs
    · rw [if_neg hv]; exact hs
  · unfold openDatabase
    by_cases hv : db.version < 2
    · rw [if_pos hv]
      rw [if_neg (by simp : ¬ (2 : Nat) < 2)]
    · rw [if_neg hv, if_neg hv]
  · intro C
    have h1 : containsStore [⟨cacheName, C⟩] syncQueueName = false := by
      simp [containsStore, cacheName, syncQueueName]
    have h2 : containsStore (createObjectStore [⟨cacheName, C⟩] syncQueueName)
        cacheName = true := by
      simp [containsStore, createObjectStore]
    show (if (1 : Nat) < 2 then
        (⟨2, upgradeToV2 [⟨cacheName, C⟩]⟩ : DBState) else ⟨1, [⟨cacheName, C⟩]⟩).stores = _
    rw [if_pos (by simp : (1 : Nat) < 2)]
    show upgradeToV2 [⟨cacheName, C⟩] = _
    unfold upgradeToV2
    simp only [h1, Bool.false_eq_true, if_false]
    rw [if_pos h2]
    rfl

/-- C10, witness: the migration theorem applied to a concrete version-1
database whose cache collection holds one record. -/
theorem c10_migration_witness :
    ((⟨cacheName, [recA]⟩ : ObjStore) ∈ (⟨1, [⟨cacheName, [recA]⟩]⟩ : DBState).stores) ∧
    ((⟨cacheName, [recA]⟩ : ObjStore)
        ∈ (openDatabase ⟨1, [⟨cacheName, [recA]⟩]⟩).stores ∧
     openDatabase (openDatabase ⟨1, [⟨cacheName, [recA]⟩]⟩)
        = openDatabase ⟨1, [⟨cacheName, [recA]⟩]⟩ ∧
     (∀ C : List PRec,
       (openDatabase ⟨1, [⟨cacheName, C⟩]⟩).stores
         = [⟨cacheName, C⟩, ⟨syncQueueName, []⟩])) :=
  ⟨by decide,
   c10_migration_safe ⟨1, [⟨cacheName, [recA]⟩]⟩ ⟨cacheName, [recA]⟩ (by decide)⟩

end ProdSync
